import Mathlib

/-!
Verification of the COM mapping tracker core of the repository
(src/core/src/common/com_mapping_tracker.rs and
src/core/src/dx9/com/device_context.rs).

Modelling choices (shallow embedding):
* A COM interface pointer (`*mut c_void`) is modelled as a natural number
  `Ptr`; `null_mut()` is the designated value `null_mut = 0`.  The tracker
  never dereferences pointers, it uses them purely as map keys, so an
  opaque identity type with decidable equality is faithful.
* `HashMap<*mut c_void, *mut c_void>` is modelled as an association list
  `List (Ptr × Ptr)`: `get` is the first-match lookup, `insert` removes any
  existing entry for the key and conses the new one (overwrite semantics),
  `remove` deletes the entry for the key.
* Rust methods taking `&mut self` are modelled in state-passing style: they
  take the tracker state and return the (possibly updated) state together
  with the return value.
* The fallible creation closure `FnOnce(T) -> Result<T>` is modelled as
  `Ptr → Except ε Ptr`; the `?` early return of `try_ensure_proxy`
  propagates the error with the state unchanged.
* A nullable interface input (`NullableInterfaceIn`, whose `as_ref` yields
  `Option<&T>`) is modelled as `Option Ptr` (`none` = null reference); the
  raw pointer wrapped in a `NullableInterfaceOut` is modelled as a plain
  `Ptr` (`null_mut` for the null output).
-/

/-- Opaque object identity: the raw pointer value used as a map key. -/
abbrev Ptr := Nat

/-- Model of `null_mut()`: the null raw pointer. -/
def null_mut : Ptr := 0

/-- First-match lookup in an association list, the model of `HashMap::get`. -/
def mlookup : List (Ptr × Ptr) → Ptr → Option Ptr
  | [], _ => none
  | e :: rest, key => if e.1 = key then some e.2 else mlookup rest key

/-- Removal of every entry whose key is `key`, the model of
`HashMap::remove` (on a map with unique keys the entry is unique). -/
def mremove : List (Ptr × Ptr) → Ptr → List (Ptr × Ptr)
  | [], _ => []
  | e :: rest, key => if e.1 = key then mremove rest key else e :: mremove rest key

/-- Overwrite insertion, the model of `HashMap::insert`: any previous entry
for the key is dropped and the new pair is added. -/
def minsert (m : List (Ptr × Ptr)) (key value : Ptr) : List (Ptr × Ptr) :=
  (key, value) :: mremove m key

/-- Model of `ComMappingTracker`: the two directional hash maps. -/
structure ComMappingTracker where
  target_to_proxy : List (Ptr × Ptr)
  proxy_to_target : List (Ptr × Ptr)
deriving Repr, DecidableEq

/-- Model of `ComMappingTracker::default()`: both maps empty. -/
def ComMappingTracker.default : ComMappingTracker := ⟨[], []⟩

/-- Model of `ComMappingTracker::try_ensure_proxy`.  If the target is
already mapped, the existing proxy is returned (the `add_ref` only touches
COM reference counts, not the maps).  Otherwise the creation closure runs;
on error the error is propagated by `?` with no insertion, on success both
directions are inserted and the new proxy returned. -/
def ComMappingTracker.try_ensure_proxy {ε : Type} (st : ComMappingTracker) (target : Ptr)
    (try_create_proxy_fn : Ptr → Except ε Ptr) : Except ε Ptr × ComMappingTracker :=
  match mlookup st.target_to_proxy target with
  | some proxy_ptr => (Except.ok proxy_ptr, st)
  | none =>
    match try_create_proxy_fn target with
    | Except.error e => (Except.error e, st)
    | Except.ok proxy =>
      (Except.ok proxy,
        { target_to_proxy := minsert st.target_to_proxy target proxy,
          proxy_to_target := minsert st.proxy_to_target proxy target })

/-- Model of `ComMappingTracker::ensure_proxy`, which is
`self.try_ensure_proxy(target, |t| Ok(create_proxy_fn(t))).unwrap()`.
The error branch models the panic of `unwrap`; it is proved unreachable
(`ensure_proxy_unwrap_never_fires`). -/
def ComMappingTracker.ensure_proxy (st : ComMappingTracker) (target : Ptr)
    (create_proxy_fn : Ptr → Ptr) : Ptr × ComMappingTracker :=
  match st.try_ensure_proxy (ε := Unit) target (fun t => Except.ok (create_proxy_fn t)) with
  | (Except.ok proxy, st') => (proxy, st')
  | (Except.error _, st') => (null_mut, st')

/-- Model of `ComMappingTracker::get_proxy`: pure lookup in the
target-to-proxy direction (the `add_ref` only touches COM reference
counts); the `&mut self` state is returned unchanged. -/
def ComMappingTracker.get_proxy (st : ComMappingTracker) (target : Ptr) :
    Option Ptr × ComMappingTracker :=
  (mlookup st.target_to_proxy target, st)

/-- Model of `ComMappingTracker::get_target`: a null proxy reference is
reported as not found (`none`); otherwise a pure lookup in the
proxy-to-target direction. -/
def ComMappingTracker.get_target (st : ComMappingTracker) (proxy : Option Ptr) :
    Option Ptr × ComMappingTracker :=
  match proxy with
  | none => (none, st)
  | some proxy_ptr => (mlookup st.proxy_to_target proxy_ptr, st)

/-- Model of `ComMappingTracker::get_target_nullable`: a null proxy
reference yields the explicit null identity
`Some(NullableInterfaceOut::new(null_mut()))`; otherwise identical to
`get_target`. -/
def ComMappingTracker.get_target_nullable (st : ComMappingTracker) (proxy : Option Ptr) :
    Option Ptr × ComMappingTracker :=
  match proxy with
  | none => (some null_mut, st)
  | some proxy_ptr => (mlookup st.proxy_to_target proxy_ptr, st)

/-- Model of `ComMappingTracker::on_proxy_destroy`: if the target is
mapped, both directional entries are removed; otherwise only a warning is
logged and the state is untouched. -/
def ComMappingTracker.on_proxy_destroy (st : ComMappingTracker) (target : Ptr) :
    ComMappingTracker :=
  match mlookup st.target_to_proxy target with
  | some proxy_ptr =>
    { target_to_proxy := mremove st.target_to_proxy target,
      proxy_to_target := mremove st.proxy_to_target proxy_ptr }
  | none => st

/-- Model of `DX9ProxyDeviceContext` (src/core/src/dx9/com/device_context.rs):
an `Arc<Mutex<ComMappingTracker>>` plus immutable configuration.  The
configuration is irrelevant to the mapping claims and omitted.  The mutex
serializes the delegated tracker operations, so in the model each context
operation is the corresponding tracker operation on the current state. -/
structure DX9ProxyDeviceContext where
  tracker : ComMappingTracker
deriving Repr, DecidableEq

/-- Model of `DX9ProxyDeviceContext::ensure_proxy`: lock, delegate to the
tracker, unlock. -/
def DX9ProxyDeviceContext.ensure_proxy (ctx : DX9ProxyDeviceContext) (target : Ptr)
    (create_proxy_fn : Ptr → Ptr) : Ptr × DX9ProxyDeviceContext :=
  let r := ctx.tracker.ensure_proxy target create_proxy_fn
  (r.1, ⟨r.2⟩)

/-- Model of `DX9ProxyDeviceContext::try_ensure_proxy`: lock, delegate to
the tracker, unlock. -/
def DX9ProxyDeviceContext.try_ensure_proxy {ε : Type} (ctx : DX9ProxyDeviceContext)
    (target : Ptr) (f : Ptr → Except ε Ptr) : Except ε Ptr × DX9ProxyDeviceContext :=
  let r := ctx.tracker.try_ensure_proxy target f
  (r.1, ⟨r.2⟩)

/-! Basic lemmas about the association-list map operations. -/

theorem mlookup_eq_none_iff (m : List (Ptr × Ptr)) (k : Ptr) :
    mlookup m k = none ↔ k ∉ m.map Prod.fst := by
  induction m with
  | nil => simp [mlookup]
  | cons e rest ih =>
    simp only [mlookup, List.map_cons, List.mem_cons]
    by_cases h : e.1 = k
    · simp [h]
    · rw [if_neg h, ih]
      constructor
      · intro hnk hor
        rcases hor with h1 | h1
        · exact h h1.symm
        · exact hnk h1
      · intro hnk h1
        exact hnk (Or.inr h1)

theorem mlookup_mem {m : List (Ptr × Ptr)} {k v : Ptr}
    (h : mlookup m k = some v) : (k, v) ∈ m := by
  induction m with
  | nil => simp [mlookup] at h
  | cons e rest ih =>
    by_cases he : e.1 = k
    · simp [mlookup, he] at h
      subst he h
      simp
    · simp [mlookup, he] at h
      exact List.mem_cons_of_mem _ (ih h)

theorem mem_mlookup {m : List (Ptr × Ptr)} {k v : Ptr}
    (hnd : (m.map Prod.fst).Nodup) (h : (k, v) ∈ m) : mlookup m k = some v := by
  induction m with
  | nil => simp at h
  | cons e rest ih =>
    rw [List.map_cons, List.nodup_cons] at hnd
    rcases List.mem_cons.1 h with h | h
    · rw [← h]
      simp [mlookup]
    · have hne : e.1 ≠ k := by
        intro he
        apply hnd.1
        rw [he]
        exact List.mem_map_of_mem Prod.fst h
      simp [mlookup, hne, ih hnd.2 h]

theorem mremove_eq_of_not_mem {m : List (Ptr × Ptr)} {k : Ptr}
    (h : k ∉ m.map Prod.fst) : mremove m k = m := by
  induction m with
  | nil => rfl
  | cons e rest ih =>
    rw [List.map_cons, List.mem_cons] at h
    push_neg at h
    have hne : e.1 ≠ k := fun he => h.1 he.symm
    simp only [mremove, if_neg hne]
    rw [ih h.2]

theorem mlookup_mremove_self (m : List (Ptr × Ptr)) (k : Ptr) :
    mlookup (mremove m k) k = none := by
  induction m with
  | nil => rfl
  | cons e rest ih =>
    by_cases h : e.1 = k
    · simp [mremove, h, ih]
    · simp [mremove, mlookup, h, ih]

theorem mlookup_mremove_ne {m : List (Ptr × Ptr)} {k k' : Ptr} (h : k' ≠ k) :
    mlookup (mremove m k) k' = mlookup m k' := by
  induction m with
  | nil => rfl
  | cons e rest ih =>
    by_cases he : e.1 = k
    · have hne : e.1 ≠ k' := by
        rw [he]
        exact fun hc => h hc.symm
      simp only [mremove, if_pos he, mlookup, if_neg hne]
      exact ih
    · by_cases he' : e.1 = k'
      · simp only [mremove, if_neg he, mlookup, if_pos he']
      · simp only [mremove, if_neg he, mlookup, if_neg he']
        exact ih

theorem mremove_sublist (m : List (Ptr × Ptr)) (k : Ptr) :
    (mremove m k).Sublist m := by
  induction m with
  | nil => simp [mremove]
  | cons e rest ih =>
    by_cases h : e.1 = k
    · simp only [mremove, if_pos h]
      exact ih.cons e
    · simp only [mremove, if_neg h]
      exact ih.cons₂ e

theorem mlookup_minsert_self (m : List (Ptr × Ptr)) (k v : Ptr) :
    mlookup (minsert m k v) k = some v := by
  simp [minsert, mlookup]

theorem mlookup_minsert_ne (m : List (Ptr × Ptr)) {k k' : Ptr} (v : Ptr) (h : k' ≠ k) :
    mlookup (minsert m k v) k' = mlookup m k' := by
  have : k ≠ k' := fun hc => h hc.symm
  simp [minsert, mlookup, this, mlookup_mremove_ne h]

/-! Behavioural lemmas about the tracker operations, shared by the claims. -/

theorem try_ensure_proxy_hit {ε : Type} (st : ComMappingTracker) {target w : Ptr}
    (f : Ptr → Except ε Ptr) (h : mlookup st.target_to_proxy target = some w) :
    st.try_ensure_proxy target f = (Except.ok w, st) := by
  simp [ComMappingTracker.try_ensure_proxy, h]

theorem try_ensure_proxy_miss_ok {ε : Type} (st : ComMappingTracker) {target w : Ptr}
    {f : Ptr → Except ε Ptr} (h : mlookup st.target_to_proxy target = none)
    (hf : f target = Except.ok w) :
    st.try_ensure_proxy target f =
      (Except.ok w,
        { target_to_proxy := minsert st.target_to_proxy target w,
          proxy_to_target := minsert st.proxy_to_target w target }) := by
  simp [ComMappingTracker.try_ensure_proxy, h, hf]

theorem ensure_proxy_hit (st : ComMappingTracker) {target w : Ptr}
    (f : Ptr → Ptr) (h : mlookup st.target_to_proxy target = some w) :
    st.ensure_proxy target f = (w, st) := by
  simp [ComMappingTracker.ensure_proxy, try_ensure_proxy_hit st _ h]

theorem ensure_proxy_miss (st : ComMappingTracker) {target : Ptr}
    (f : Ptr → Ptr) (h : mlookup st.target_to_proxy target = none) :
    st.ensure_proxy target f =
      (f target,
        { target_to_proxy := minsert st.target_to_proxy target (f target),
          proxy_to_target := minsert st.proxy_to_target (f target) target }) := by
  unfold ComMappingTracker.ensure_proxy
  have hstep := try_ensure_proxy_miss_ok (ε := Unit) st
    (f := fun t => Except.ok (f t)) (w := f target) h rfl
  rw [hstep]

/-- C3: a failing build closure on an unmapped target propagates the same
error and leaves both maps exactly as they were. -/
theorem try_ensure_proxy_build_failure {ε : Type} (st : ComMappingTracker)
    {target : Ptr} {f : Ptr → Except ε Ptr} {e : ε}
    (hmiss : mlookup st.target_to_proxy target = none)
    (hfail : f target = Except.error e) :
    st.try_ensure_proxy target f = (Except.error e, st) := by
  simp [ComMappingTracker.try_ensure_proxy, hmiss, hfail]

/-- C3 witness: the build failure behaviour at a concrete tracker and
closure. -/
theorem try_ensure_proxy_build_failure_witness :
    ComMappingTracker.default.try_ensure_proxy 1 (fun _ => (Except.error 42 : Except Nat Ptr)) =
      (Except.error 42, ComMappingTracker.default) :=
  try_ensure_proxy_build_failure ComMappingTracker.default rfl rfl

/-- C5: removing an unmapped target is a no-op: the tracker state is
returned exactly unchanged (and the operation is total, so it cannot
fail). -/
theorem on_proxy_destroy_unmapped (st : ComMappingTracker) {target : Ptr}
    (h : mlookup st.target_to_proxy target = none) :
    st.on_proxy_destroy target = st := by
  simp [ComMappingTracker.on_proxy_destroy, h]

/-- C5 witness: removal of an unmapped key on a concrete nonempty
tracker. -/
theorem on_proxy_destroy_unmapped_witness :
    (ComMappingTracker.mk [(1, 2)] [(2, 1)]).on_proxy_destroy 7 =
      ComMappingTracker.mk [(1, 2)] [(2, 1)] :=
  on_proxy_destroy_unmapped _ rfl

/-- C4: on one and the same tracker state, `get_target` of a null input is
absent while `get_target_nullable` of a null input is the explicit null
identity, which is distinguishable from absent; and on a present but
unmapped wrapper input both variants are absent. -/
theorem get_target_null_divergence (st : ComMappingTracker) {p : Ptr}
    (hunmapped : mlookup st.proxy_to_target p = none) :
    (st.get_target none).1 = none ∧
    (st.get_target_nullable none).1 = some null_mut ∧
    (some null_mut ≠ (none : Option Ptr)) ∧
    (st.get_target (some p)).1 = none ∧
    (st.get_target_nullable (some p)).1 = none := by
  refine ⟨rfl, rfl, by simp, ?_, ?_⟩ <;>
    simp [ComMappingTracker.get_target, ComMappingTracker.get_target_nullable, hunmapped]

/-- C4 witness: the divergence at a concrete nonempty tracker state and a
concrete unmapped wrapper pointer. -/
theorem get_target_null_divergence_witness :
    ((ComMappingTracker.mk [(1, 2)] [(2, 1)]).get_target none).1 = none ∧
    ((ComMappingTracker.mk [(1, 2)] [(2, 1)]).get_target_nullable none).1 = some null_mut ∧
    (some null_mut ≠ (none : Option Ptr)) ∧
    ((ComMappingTracker.mk [(1, 2)] [(2, 1)]).get_target (some 5)).1 = none ∧
    ((ComMappingTracker.mk [(1, 2)] [(2, 1)]).get_target_nullable (some 5)).1 = none :=
  get_target_null_divergence _ rfl

/-- C7: the three lookup operations never modify the mapping state: the
state they hand back is exactly the input state, for every input. -/
theorem lookups_preserve_state (st : ComMappingTracker) (target : Ptr) (proxy : Option Ptr) :
    (st.get_proxy target).2 = st ∧
    (st.get_target proxy).2 = st ∧
    (st.get_target_nullable proxy).2 = st := by
  refine ⟨rfl, ?_, ?_⟩ <;>
    cases proxy <;>
      simp [ComMappingTracker.get_target, ComMappingTracker.get_target_nullable]

/-- C10: `get_target` and `get_target_nullable` agree exactly (result and
state) on every non-null wrapper input and every tracker state, and differ
on the null input. -/
theorem get_target_variants_agree_on_non_null :
    (∀ (st : ComMappingTracker) (p : Ptr),
        st.get_target (some p) = st.get_target_nullable (some p)) ∧
    (∀ st : ComMappingTracker,
        (st.get_target none).1 ≠ (st.get_target_nullable none).1) := by
  constructor
  · intro st p
    rfl
  · intro st
    simp [ComMappingTracker.get_target, ComMappingTracker.get_target_nullable]

/-! Repeated ensure calls on the same original identity (claim C1).
`ensure_seq` runs a sequence of `ensure_proxy` calls for one target and
counts the build-closure invocations: in `try_ensure_proxy` the closure is
invoked exactly on the lookup-miss branch, so an invocation is counted
precisely when the target is unmapped at the time of the call. -/

def ComMappingTracker.ensure_seq :
    ComMappingTracker → Ptr → List (Ptr → Ptr) → List Ptr × ComMappingTracker × Nat
  | st, _, [] => ([], st, 0)
  | st, o, b :: bs =>
    let invoked := if (mlookup st.target_to_proxy o).isNone then 1 else 0
    let r := st.ensure_proxy o b
    let rest := ComMappingTracker.ensure_seq r.2 o bs
    (r.1 :: rest.1, rest.2.1, invoked + rest.2.2)

theorem ensure_seq_mapped (o : Ptr) (bs : List (Ptr → Ptr)) :
    ∀ (st : ComMappingTracker) {w : Ptr}, mlookup st.target_to_proxy o = some w →
      st.ensure_seq o bs = (List.replicate bs.length w, st, 0) := by
  induction bs with
  | nil => intro st w h; rfl
  | cons b bs ih =>
    intro st w h
    simp only [ComMappingTracker.ensure_seq, h, Option.isNone_some,
      ensure_proxy_hit st b h, ih st h, List.length_cons, List.replicate_succ]
    simp

/-- C1: for a sequence of ensure calls on the same unmapped original
identity, the build closure is invoked exactly once, on the first call,
and every call of the sequence returns the wrapper produced by that first
invocation. -/
theorem ensure_seq_build_once (st : ComMappingTracker) (o : Ptr)
    (b : Ptr → Ptr) (bs : List (Ptr → Ptr))
    (h : mlookup st.target_to_proxy o = none) :
    (st.ensure_seq o (b :: bs)).2.2 = 1 ∧
    (st.ensure_seq o (b :: bs)).1 = List.replicate (bs.length + 1) (b o) := by
  have hminss := ensure_proxy_miss st b h
  have hnext : mlookup (st.ensure_proxy o b).2.target_to_proxy o = some (b o) := by
    rw [hminss]
    exact mlookup_minsert_self _ _ _
  have hrest := ensure_seq_mapped o bs (st.ensure_proxy o b).2 hnext
  constructor
  · simp only [ComMappingTracker.ensure_seq, h, Option.isNone_none, if_pos, hrest]
  · rw [hminss] at hrest
    simp only [ComMappingTracker.ensure_seq, h, Option.isNone_none, if_pos, hminss, hrest,
      List.replicate_succ]

/-- C1 witness: two ensure calls with different build closures on a fresh
tracker; one invocation, both calls return the first wrapper. -/
theorem ensure_seq_build_once_witness :
    (ComMappingTracker.default.ensure_seq 1 [fun _ => 2, fun _ => 3]).2.2 = 1 ∧
    (ComMappingTracker.default.ensure_seq 1 [fun _ => 2, fun _ => 3]).1 =
      List.replicate 2 2 :=
  ensure_seq_build_once ComMappingTracker.default 1 (fun _ => 2) [fun _ => 3] rfl

/-- C6: when `o` is mapped to `w`, removal makes both lookups absent, and a
subsequent ensure takes the miss branch (so it invokes the new build
closure) and installs a fresh pair in both directions. -/
theorem remove_then_fresh_ensure (st : ComMappingTracker) {o w : Ptr} (b : Ptr → Ptr)
    (h : mlookup st.target_to_proxy o = some w) :
    ((st.on_proxy_destroy o).get_proxy o).1 = none ∧
    ((st.on_proxy_destroy o).get_target (some w)).1 = none ∧
    mlookup (st.on_proxy_destroy o).target_to_proxy o = none ∧
    ((st.on_proxy_destroy o).ensure_proxy o b).1 = b o ∧
    mlookup ((st.on_proxy_destroy o).ensure_proxy o b).2.target_to_proxy o = some (b o) ∧
    mlookup ((st.on_proxy_destroy o).ensure_proxy o b).2.proxy_to_target (b o) = some o := by
  have hdestroy : st.on_proxy_destroy o =
      { target_to_proxy := mremove st.target_to_proxy o,
        proxy_to_target := mremove st.proxy_to_target w } := by
    simp [ComMappingTracker.on_proxy_destroy, h]
  have hmiss : mlookup (st.on_proxy_destroy o).target_to_proxy o = none := by
    rw [hdestroy]
    exact mlookup_mremove_self _ _
  have hens := ensure_proxy_miss (st.on_proxy_destroy o) b hmiss
  refine ⟨?_, ?_, hmiss, ?_, ?_, ?_⟩
  · simp only [ComMappingTracker.get_proxy, hmiss]
  · rw [hdestroy]
    simp only [ComMappingTracker.get_target]
    exact mlookup_mremove_self _ _
  · rw [hens]
  · rw [hens]
    exact mlookup_minsert_self _ _ _
  · rw [hens]
    exact mlookup_minsert_self _ _ _

/-- C6 witness: removal and re-ensure on a concrete one-pair tracker. -/
theorem remove_then_fresh_ensure_witness :
    (((ComMappingTracker.mk [(1, 2)] [(2, 1)]).on_proxy_destroy 1).get_proxy 1).1 = none ∧
    (((ComMappingTracker.mk [(1, 2)] [(2, 1)]).on_proxy_destroy 1).get_target (some 2)).1 = none ∧
    mlookup ((ComMappingTracker.mk [(1, 2)] [(2, 1)]).on_proxy_destroy 1).target_to_proxy 1 = none ∧
    (((ComMappingTracker.mk [(1, 2)] [(2, 1)]).on_proxy_destroy 1).ensure_proxy 1 (fun _ => 3)).1 =
      (fun _ : Ptr => 3) 1 ∧
    mlookup (((ComMappingTracker.mk [(1, 2)] [(2, 1)]).on_proxy_destroy 1).ensure_proxy 1
      (fun _ => 3)).2.target_to_proxy 1 = some ((fun _ : Ptr => 3) 1) ∧
    mlookup (((ComMappingTracker.mk [(1, 2)] [(2, 1)]).on_proxy_destroy 1).ensure_proxy 1
      (fun _ => 3)).2.proxy_to_target ((fun _ : Ptr => 3) 1) = some 1 :=
  remove_then_fresh_ensure (ComMappingTracker.mk [(1, 2)] [(2, 1)]) (fun _ => 3) rfl

/-- C8: with an infallible build closure, `try_ensure_proxy` always
returns `Ok`, so the `unwrap` inside `ensure_proxy` (tracker level and
context level) never fires; every failure path of the modelled operations
is a typed `Except`/`Option` value. -/
theorem ensure_proxy_unwrap_never_fires (st : ComMappingTracker) (target : Ptr)
    (b : Ptr → Ptr) :
    ∃ w st', st.try_ensure_proxy (ε := Unit) target (fun t => Except.ok (b t)) =
        (Except.ok w, st') ∧
      st.ensure_proxy target b = (w, st') ∧
      DX9ProxyDeviceContext.ensure_proxy ⟨st⟩ target b = (w, ⟨st'⟩) := by
  cases hm : mlookup st.target_to_proxy target with
  | some w =>
    refine ⟨w, st, try_ensure_proxy_hit st _ hm, ensure_proxy_hit st b hm, ?_⟩
    simp [DX9ProxyDeviceContext.ensure_proxy, ensure_proxy_hit st b hm]
  | none =>
    refine ⟨b target,
      { target_to_proxy := minsert st.target_to_proxy target (b target),
        proxy_to_target := minsert st.proxy_to_target (b target) target },
      try_ensure_proxy_miss_ok st hm rfl, ensure_proxy_miss st b hm, ?_⟩
    simp [DX9ProxyDeviceContext.ensure_proxy, ensure_proxy_miss st b hm]

/-- C9: the mutex of the shared context serializes concurrent ensure
calls, so two ensure calls for the same unmapped original identity with
different build closures execute in one of the two sequential orders; in
either order (the statement covers both, being general in the closures)
only the first closure's wrapper is installed, the second call returns the
same wrapper and changes nothing, and exactly one entry for the identity
exists afterwards. -/
theorem concurrent_ensure_serialized (ctx : DX9ProxyDeviceContext) (o : Ptr)
    (f g : Ptr → Ptr) (h : mlookup ctx.tracker.target_to_proxy o = none) :
    (ctx.ensure_proxy o f).1 = f o ∧
    ((ctx.ensure_proxy o f).2.ensure_proxy o g).1 = (ctx.ensure_proxy o f).1 ∧
    ((ctx.ensure_proxy o f).2.ensure_proxy o g).2 = (ctx.ensure_proxy o f).2 ∧
    mlookup ((ctx.ensure_proxy o f).2.ensure_proxy o g).2.tracker.target_to_proxy o =
      some (f o) ∧
    (((ctx.ensure_proxy o f).2.ensure_proxy o g).2.tracker.target_to_proxy.map
      Prod.fst).count o = 1 := by
  have hens := ensure_proxy_miss ctx.tracker f h
  have hfirst : ctx.ensure_proxy o f =
      (f o,
        ⟨{ target_to_proxy := minsert ctx.tracker.target_to_proxy o (f o),
           proxy_to_target := minsert ctx.tracker.proxy_to_target (f o) o }⟩) := by
    simp [DX9ProxyDeviceContext.ensure_proxy, hens]
  have hlk : mlookup (minsert ctx.tracker.target_to_proxy o (f o)) o = some (f o) :=
    mlookup_minsert_self _ _ _
  have hhit := ensure_proxy_hit
    ⟨minsert ctx.tracker.target_to_proxy o (f o), minsert ctx.tracker.proxy_to_target (f o) o⟩
    g hlk
  have hsecond :
      ((ctx.ensure_proxy o f).2.ensure_proxy o g) = (f o, (ctx.ensure_proxy o f).2) := by
    rw [hfirst]
    simp [DX9ProxyDeviceContext.ensure_proxy, hhit]
  refine ⟨by rw [hfirst], by rw [hsecond, hfirst], by rw [hsecond], ?_, ?_⟩
  · rw [hsecond, hfirst]
    exact hlk
  · rw [hsecond, hfirst]
    simp only [minsert, List.map_cons, List.count_cons_self]
    have : o ∉ (mremove ctx.tracker.target_to_proxy o).map Prod.fst :=
      (mlookup_eq_none_iff _ _).1 (mlookup_mremove_self _ _)
    rw [List.count_eq_zero.2 this]

/-- C9 witness: the serialized race at a concrete context, identity and
pair of distinct build closures. -/
theorem concurrent_ensure_serialized_witness :
    ((DX9ProxyDeviceContext.mk ComMappingTracker.default).ensure_proxy 1 (fun _ => 2)).1 =
      (fun _ : Ptr => 2) 1 ∧
    ((((DX9ProxyDeviceContext.mk ComMappingTracker.default).ensure_proxy 1
        (fun _ => 2)).2.ensure_proxy 1 (fun _ => 3)).1 =
      ((DX9ProxyDeviceContext.mk ComMappingTracker.default).ensure_proxy 1 (fun _ => 2)).1) ∧
    ((((DX9ProxyDeviceContext.mk ComMappingTracker.default).ensure_proxy 1
        (fun _ => 2)).2.ensure_proxy 1 (fun _ => 3)).2 =
      ((DX9ProxyDeviceContext.mk ComMappingTracker.default).ensure_proxy 1 (fun _ => 2)).2) ∧
    (mlookup (((DX9ProxyDeviceContext.mk ComMappingTracker.default).ensure_proxy 1
        (fun _ => 2)).2.ensure_proxy 1 (fun _ => 3)).2.tracker.target_to_proxy 1 =
      some ((fun _ : Ptr => 2) 1)) ∧
    (((((DX9ProxyDeviceContext.mk ComMappingTracker.default).ensure_proxy 1
        (fun _ => 2)).2.ensure_proxy 1 (fun _ => 3)).2.tracker.target_to_proxy.map
      Prod.fst).count 1 = 1) :=
  concurrent_ensure_serialized (DX9ProxyDeviceContext.mk ComMappingTracker.default) 1
    (fun _ => 2) (fun _ => 3) rfl

/-! Arbitrary sequences of ensure/remove operations (claim C2). -/

/-- One tracker operation: a (fallible) ensure or a removal. -/
inductive TrackerOp where
  | ensure (target : Ptr) (build : Ptr → Except Unit Ptr)
  | remove (target : Ptr)

/-- Running a sequence of tracker operations from a given state. -/
def runOps : ComMappingTracker → List TrackerOp → ComMappingTracker
  | st, [] => st
  | st, TrackerOp.ensure o b :: ops => runOps (st.try_ensure_proxy o b).2 ops
  | st, TrackerOp.remove o :: ops => runOps (st.on_proxy_destroy o) ops

/-- Freshness of one build result: whenever the build closure actually
runs (lookup miss) and succeeds, the produced wrapper identity is a new
live object, hence distinct from every wrapper identity currently in the
map.  This encodes the data model's premise that an identity uniquely
identifies one live object. -/
def fresh_build (st : ComMappingTracker) (o : Ptr) (b : Ptr → Except Unit Ptr) : Bool :=
  match mlookup st.target_to_proxy o with
  | some _ => true
  | none =>
    match b o with
    | Except.error _ => true
    | Except.ok w => decide (w ∉ st.target_to_proxy.map Prod.snd)

/-- Freshness along a whole operation sequence. -/
def fresh_trace : ComMappingTracker → List TrackerOp → Bool
  | _, [] => true
  | st, TrackerOp.ensure o b :: ops =>
    fresh_build st o b && fresh_trace (st.try_ensure_proxy o b).2 ops
  | st, TrackerOp.remove o :: ops => fresh_trace (st.on_proxy_destroy o) ops

/-- Swapping the two components of an entry. -/
def swapPair (e : Ptr × Ptr) : Ptr × Ptr := (e.2, e.1)

/-- Structural invariant of the tracker: the proxy-to-target map is the
entrywise swap of the target-to-proxy map, and keys as well as values of
the latter are duplicate-free. -/
def StructInv (st : ComMappingTracker) : Prop :=
  st.proxy_to_target = st.target_to_proxy.map swapPair ∧
  (st.target_to_proxy.map Prod.fst).Nodup ∧
  (st.target_to_proxy.map Prod.snd).Nodup

/-- Claim-facing bijection property: the two maps are mutually inverse and
have equal cardinality. -/
def MutualInverse (st : ComMappingTracker) : Prop :=
  (∀ o w, mlookup st.target_to_proxy o = some w ↔
    mlookup st.proxy_to_target w = some o) ∧
  st.target_to_proxy.length = st.proxy_to_target.length

theorem map_fst_swap (m : List (Ptr × Ptr)) :
    (m.map swapPair).map Prod.fst = m.map Prod.snd := by
  induction m with
  | nil => rfl
  | cons e rest ih => simp [swapPair, ih]

theorem map_snd_swap (m : List (Ptr × Ptr)) :
    (m.map swapPair).map Prod.snd = m.map Prod.fst := by
  induction m with
  | nil => rfl
  | cons e rest ih => simp [swapPair, ih]

theorem nodup_fst_mremove {m : List (Ptr × Ptr)} (k : Ptr)
    (h : (m.map Prod.fst).Nodup) : ((mremove m k).map Prod.fst).Nodup :=
  h.sublist ((mremove_sublist m k).map Prod.fst)

theorem nodup_snd_mremove {m : List (Ptr × Ptr)} (k : Ptr)
    (h : (m.map Prod.snd).Nodup) : ((mremove m k).map Prod.snd).Nodup :=
  h.sublist ((mremove_sublist m k).map Prod.snd)

theorem mremove_map_swap {m : List (Ptr × Ptr)} {o w : Ptr}
    (hmem : (o, w) ∈ m)
    (hfst : (m.map Prod.fst).Nodup) (hsnd : (m.map Prod.snd).Nodup) :
    mremove (m.map swapPair) w = (mremove m o).map swapPair := by
  induction m with
  | nil => simp at hmem
  | cons e rest ih =>
    rw [List.map_cons, List.nodup_cons] at hfst
    rw [List.map_cons, List.nodup_cons] at hsnd
    rcases List.mem_cons.1 hmem with he | hmem'
    · have he' : e = (o, w) := he.symm
      subst he'
      have hw : w ∉ (rest.map swapPair).map Prod.fst := by
        rw [map_fst_swap]
        exact hsnd.1
      have ho : o ∉ rest.map Prod.fst := hfst.1
      simp [mremove, swapPair, mremove_eq_of_not_mem hw, mremove_eq_of_not_mem ho]
    · have hne1 : e.1 ≠ o := by
        intro hc
        apply hfst.1
        rw [hc]
        exact List.mem_map_of_mem Prod.fst hmem'
      have hne2 : e.2 ≠ w := by
        intro hc
        apply hsnd.1
        rw [hc]
        exact List.mem_map_of_mem Prod.snd hmem'
      simp only [List.map_cons, mremove, swapPair, if_neg hne1, if_neg hne2]
      rw [ih hmem' hfst.2 hsnd.2]

theorem StructInv_ensure (st : ComMappingTracker) (o : Ptr) (b : Ptr → Except Unit Ptr)
    (hinv : StructInv st) (hfresh : fresh_build st o b = true) :
    StructInv (st.try_ensure_proxy o b).2 := by
  obtain ⟨hswap, hfst, hsnd⟩ := hinv
  cases hm : mlookup st.target_to_proxy o with
  | some w =>
    rw [try_ensure_proxy_hit st b hm]
    exact ⟨hswap, hfst, hsnd⟩
  | none =>
    cases hb : b o with
    | error e =>
      simp only [ComMappingTracker.try_ensure_proxy, hm, hb]
      exact ⟨hswap, hfst, hsnd⟩
    | ok w =>
      have hwfresh : w ∉ st.target_to_proxy.map Prod.snd := by
        rw [fresh_build, hm, hb] at hfresh
        exact of_decide_eq_true hfresh
      have hofresh : o ∉ st.target_to_proxy.map Prod.fst :=
        (mlookup_eq_none_iff _ _).1 hm
      rw [try_ensure_proxy_miss_ok st hm hb]
      have ht2p : minsert st.target_to_proxy o w = (o, w) :: st.target_to_proxy := by
        rw [minsert, mremove_eq_of_not_mem hofresh]
      have hkeys : st.proxy_to_target.map Prod.fst = st.target_to_proxy.map Prod.snd := by
        rw [hswap, map_fst_swap]
      have hp2t : minsert st.proxy_to_target w o = (w, o) :: st.proxy_to_target := by
        rw [minsert, mremove_eq_of_not_mem (hkeys ▸ hwfresh)]
      refine ⟨?_, ?_, ?_⟩
      · rw [hp2t, ht2p, hswap, List.map_cons]
        rfl
      · simp only [ht2p, List.map_cons, List.nodup_cons]
        exact ⟨hofresh, hfst⟩
      · simp only [ht2p, List.map_cons, List.nodup_cons]
        exact ⟨hwfresh, hsnd⟩

theorem StructInv_remove (st : ComMappingTracker) (o : Ptr)
    (hinv : StructInv st) : StructInv (st.on_proxy_destroy o) := by
  obtain ⟨hswap, hfst, hsnd⟩ := hinv
  cases hm : mlookup st.target_to_proxy o with
  | none =>
    simp only [ComMappingTracker.on_proxy_destroy, hm]
    exact ⟨hswap, hfst, hsnd⟩
  | some w =>
    have hmem : (o, w) ∈ st.target_to_proxy := mlookup_mem hm
    simp only [ComMappingTracker.on_proxy_destroy, hm]
    refine ⟨?_, nodup_fst_mremove o hfst, nodup_snd_mremove o hsnd⟩
    rw [hswap, mremove_map_swap hmem hfst hsnd]

theorem StructInv_runOps : ∀ (ops : List TrackerOp) (st : ComMappingTracker),
    StructInv st → fresh_trace st ops = true → StructInv (runOps st ops)
  | [], _, hinv, _ => hinv
  | TrackerOp.ensure o b :: ops, st, hinv, hfr => by
    rw [fresh_trace, Bool.and_eq_true] at hfr
    exact StructInv_runOps ops _ (StructInv_ensure st o b hinv hfr.1) hfr.2
  | TrackerOp.remove o :: ops, st, hinv, hfr =>
    StructInv_runOps ops _ (StructInv_remove st o hinv) hfr

theorem StructInv_to_MutualInverse {st : ComMappingTracker}
    (hinv : StructInv st) : MutualInverse st := by
  obtain ⟨hswap, hfst, hsnd⟩ := hinv
  have hkeys : (st.proxy_to_target.map Prod.fst).Nodup := by
    rw [hswap, map_fst_swap]
    exact hsnd
  refine ⟨?_, ?_⟩
  · intro o w
    constructor
    · intro h
      apply mem_mlookup hkeys
      rw [hswap]
      exact List.mem_map_of_mem swapPair (mlookup_mem h)
    · intro h
      apply mem_mlookup hfst
      have hmem := mlookup_mem h
      rw [hswap] at hmem
      obtain ⟨e, hemem, hee⟩ := List.mem_map.1 hmem
      have he1 : e.1 = o := by
        have h2 := congrArg Prod.snd hee
        simpa [swapPair] using h2
      have he2 : e.2 = w := by
        have h1 := congrArg Prod.fst hee
        simpa [swapPair] using h1
      have heq : e = (o, w) := by
        rw [← he1, ← he2]
      rw [← heq]
      exact hemem
  · rw [hswap, List.length_map]

/-- C2: after any finite sequence of ensure and remove operations starting
from the empty tracker, in which every build that actually runs produces a
fresh wrapper identity (the data model: identities uniquely identify live
objects), the two maps are mutually inverse and have equal cardinality. -/
theorem ensure_remove_bijection (ops : List TrackerOp)
    (hfresh : fresh_trace ComMappingTracker.default ops = true) :
    MutualInverse (runOps ComMappingTracker.default ops) :=
  StructInv_to_MutualInverse
    (StructInv_runOps ops ComMappingTracker.default ⟨rfl, List.nodup_nil, List.nodup_nil⟩ hfresh)

/-- C2 witness: a concrete sequence of two ensures (one failing build),
one remove, and a re-ensure, run from the empty tracker. -/
theorem ensure_remove_bijection_witness :
    fresh_trace ComMappingTracker.default
        [TrackerOp.ensure 1 (fun _ => Except.ok 2),
         TrackerOp.ensure 3 (fun _ => Except.error ()),
         TrackerOp.ensure 1 (fun _ => Except.ok 9),
         TrackerOp.remove 1,
         TrackerOp.ensure 1 (fun _ => Except.ok 4)] = true ∧
    MutualInverse (runOps ComMappingTracker.default
        [TrackerOp.ensure 1 (fun _ => Except.ok 2),
         TrackerOp.ensure 3 (fun _ => Except.error ()),
         TrackerOp.ensure 1 (fun _ => Except.ok 9),
         TrackerOp.remove 1,
         TrackerOp.ensure 1 (fun _ => Except.ok 4)]) :=
  ⟨rfl, ensure_remove_bijection
    [TrackerOp.ensure 1 (fun _ => Except.ok 2),
     TrackerOp.ensure 3 (fun _ => Except.error ()),
     TrackerOp.ensure 1 (fun _ => Except.ok 9),
     TrackerOp.remove 1,
     TrackerOp.ensure 1 (fun _ => Except.ok 4)] rfl⟩
